import Mathlib

/-!
Verification development for the esp-generate project generator.

We shallowly embed the two core engines of the repository:

* the Active Configuration Resolver (`src/config.rs`): `ActiveConfiguration`
  with `select_idx`/`select`, `deselect_group`, `is_option_active`,
  `requirements_met`, `can_be_disabled_impl`;
* the Template Directive Processor (`process_file` in `src/main.rs`) and the
  headless option validation (`process_options` in `src/main.rs`).

Rust `&str`/`String` values are embedded as Lean `String`s; operations that
Rust performs on string contents (trim, prefix tests, splitting, replacing)
are implemented below as structural recursions over the underlying character
list (`String.data`), matching Rust's behaviour on the character level.
This keeps every definition kernel-executable.
-/

/-! ## Character-list string operations (Rust `str` methods) -/

/-- Rust `str::trim`: remove leading and trailing whitespace. -/
def trimL (l : List Char) : List Char :=
  ((l.dropWhile Char.isWhitespace).reverse.dropWhile Char.isWhitespace).reverse

/-- Rust `str::split` with a single-character separator (used for `lines`). -/
def splitChar (sep : Char) : List Char → List (List Char)
  | [] => [[]]
  | c :: rest =>
    if c = sep then [] :: splitChar sep rest
    else
      match splitChar sep rest with
      | [] => [c :: []]
      | h :: t => (c :: h) :: t

/-- Fuel-driven worker for splitting on a multi-character separator.
The fuel is always instantiated with the length of the list, which suffices
because every step consumes at least one character (the separator is never
empty at the call sites). -/
def splitSeqGo (sep : List Char) : Nat → List Char → List (List Char)
  | _, [] => [[]]
  | 0, l => [l]
  | fuel + 1, c :: rest =>
    if sep ≠ [] && sep.isPrefixOf (c :: rest) then
      [] :: splitSeqGo sep fuel ((c :: rest).drop sep.length)
    else
      match splitSeqGo sep fuel rest with
      | [] => [c :: rest]
      | h :: t => (c :: h) :: t

/-- Rust `str::split` with a multi-character separator pattern. -/
def splitSeq (sep l : List Char) : List (List Char) := splitSeqGo sep l.length l

/-- Fuel-driven worker for `str::replace` (replace all occurrences,
left to right, non-overlapping). -/
def replaceSeqGo (pat rep : List Char) : Nat → List Char → List Char
  | _, [] => []
  | 0, l => l
  | fuel + 1, c :: rest =>
    if pat ≠ [] && pat.isPrefixOf (c :: rest) then
      rep ++ replaceSeqGo pat rep fuel ((c :: rest).drop pat.length)
    else c :: replaceSeqGo pat rep fuel rest

/-- Rust `str::replace`: replace every occurrence of `pat` by `rep`. -/
def replaceSeq (pat rep l : List Char) : List Char := replaceSeqGo pat rep l.length l

/-- Split at every character satisfying `p` (worker for `split_whitespace`). -/
def splitPred (p : Char → Bool) : List Char → List (List Char)
  | [] => [[]]
  | c :: rest =>
    if p c then [] :: splitPred p rest
    else
      match splitPred p rest with
      | [] => [c :: []]
      | h :: t => (c :: h) :: t

/-- Rust `str::split_whitespace`: whitespace-separated tokens, empty pieces
dropped. -/
def split_whitespace (l : List Char) : List (List Char) :=
  (splitPred Char.isWhitespace l).filter (fun p => !p.isEmpty)

/-- Rust `str::lines`: split on `'\n'`, drop a final empty piece, and strip a
single trailing `'\r'` from each line. -/
def rustLines (s : String) : List (List Char) :=
  let parts := splitChar '\n' s.data
  let parts := if parts.getLast? = some [] then parts.dropLast else parts
  parts.map fun l => if l.getLast? = some '\r' then l.dropLast else l

/-! ## Data model (`src/template.rs`, `esp_metadata::Chip`) -/

/-- The `Chip` enumeration (`esp_metadata::Chip`). -/
inductive Chip where
  | esp32
  | esp32c2
  | esp32c3
  | esp32c6
  | esp32h2
  | esp32s2
  | esp32s3
deriving DecidableEq, Repr

/-- Rust `GeneratorOption` from `src/template.rs`: a selectable leaf option. -/
structure GeneratorOption where
  name : String
  display_name : String
  selection_group : String
  help : String
  requires : List String
  chips : List Chip
deriving DecidableEq, Repr

/-- Rust `ActiveConfiguration` from `src/config.rs`. The `options` tree field is
omitted: none of the operations verified here consult it (they only use the
flattened `flat_options` view). -/
structure ActiveConfiguration where
  chip : Chip
  selected : List Nat
  flat_options : List GeneratorOption
deriving DecidableEq, Repr

/-- Rust slice indexing `options[i]`. Rust panics when `i` is out of range;
every theorem below only ever indexes with in-range values (the `selected`
list starts empty and only in-range indices are pushed), so the default
value returned out of range is never consulted. -/
def getOpt (options : List GeneratorOption) (i : Nat) : GeneratorOption :=
  options.getD i ⟨"", "", "", "", [], []⟩

/-! ## Active Configuration Resolver (`src/config.rs`) -/

namespace ActiveConfiguration

/-- Rust `ActiveConfiguration::is_group_selected`. -/
def is_group_selected (c : ActiveConfiguration) (group : String) : Bool :=
  c.selected.any fun s => (getOpt c.flat_options s).selection_group == group

/-- Rust `ActiveConfiguration::selected_index`. -/
def selected_index (c : ActiveConfiguration) (option : String) : Option Nat :=
  c.selected.findIdx? fun s => (getOpt c.flat_options s).name == option

/-- Rust `ActiveConfiguration::is_selected`. -/
def is_selected (c : ActiveConfiguration) (option : String) : Bool :=
  (c.selected_index option).isSome

/-- Rust `ActiveConfiguration::group_exists`. -/
def group_exists (key : String) (options : List GeneratorOption) : Bool :=
  options.any fun o => o.selection_group == key

/-- The `strip_prefix('!')` destructuring at the top of
`requirements_met`'s loop: a requirement token is split into its key and the
expected polarity. -/
def splitRequirement (requirement : String) : String × Bool :=
  match requirement.data with
  | '!' :: rest => (String.mk rest, false)
  | _ => (requirement, true)

/-- Rust `ActiveConfiguration::requirements_met`: each token must be satisfied,
first interpreted as an option name, then (only when that fails) as a
selection-group name that must exist. -/
def requirements_met (c : ActiveConfiguration) (requires : List String) : Bool :=
  requires.all fun requirement =>
    let kv := splitRequirement requirement
    if c.is_selected kv.1 == kv.2 then true
    else group_exists kv.1 c.flat_options && (c.is_group_selected kv.1 == kv.2)

/-- Rust `ActiveConfiguration::is_option_active`: chip applicability, own
requirements, and no selected option carrying a `!`-requirement against this
option's name. -/
def is_option_active (c : ActiveConfiguration) (option : GeneratorOption) : Bool :=
  if !option.chips.isEmpty && !option.chips.contains c.chip then false
  else if !c.requirements_met option.requires then false
  else
    !(c.selected.any fun s =>
      (getOpt c.flat_options s).requires.any fun r =>
        match r.data with
        | '!' :: rest => String.mk rest == option.name
        | _ => false)

/-- Rust `ActiveConfiguration::can_be_disabled_impl`. -/
def can_be_disabled_impl (selected : List Nat) (options : List GeneratorOption)
    (option : Nat) (allow_deselecting_group : Bool) : Bool :=
  let op := getOpt options option
  !(selected.any fun s =>
    (getOpt options s).requires.any fun o =>
      o == op.name || (o == op.selection_group && !allow_deselecting_group))

/-- Rust `ActiveConfiguration::deselect_group`. Returns the success flag together
with the resulting `selected` list (the Rust function mutates `selected` in
place; on failure it returns before mutating anything). -/
def deselect_group (selected : List Nat) (options : List GeneratorOption)
    (group : String) : Bool × List Nat :=
  if group.isEmpty then (true, selected)
  else if !(selected.all fun s =>
      if (getOpt options s).selection_group == group then
        can_be_disabled_impl selected options s true
      else true) then
    (false, selected)
  else
    (true, selected.filter fun s => (getOpt options s).selection_group != group)

/-- Rust `ActiveConfiguration::select_idx`. -/
def select_idx (c : ActiveConfiguration) (idx : Nat) : ActiveConfiguration :=
  let o := getOpt c.flat_options idx
  if !c.is_option_active o then c
  else
    let r := deselect_group c.selected c.flat_options o.selection_group
    if !r.1 then c
    else { c with selected := r.2 ++ [idx] }

end ActiveConfiguration

/-- Rust `find_option` from `src/config.rs`. -/
def find_option (option : String) (options : List GeneratorOption) (chip : Chip) :
    Option (Nat × GeneratorOption) :=
  (options.enum).find? fun p =>
    p.2.name == option && (p.2.chips.isEmpty || p.2.chips.contains chip)

/-- Rust `ActiveConfiguration::select`. The Rust function `unwrap`s the result of
`find_option`; `none` models that panic. -/
def ActiveConfiguration.select (c : ActiveConfiguration) (option : String) :
    Option ActiveConfiguration :=
  (find_option option c.flat_options c.chip).map fun p => c.select_idx p.1

/-! ## Selection sequences (for the group-exclusivity invariant) -/

/-- One resolver call: `select` by name, or `select_idx` by index. -/
inductive SelectAction where
  | byName (name : String)
  | byIdx (idx : Nat)
deriving DecidableEq, Repr

/-- Run one call. `none` models a Rust panic: `select` on a name that
`find_option` does not resolve, or `select_idx` with an out-of-range index
(the Rust code indexes `flat_options[idx]` immediately). -/
def runAction (c : ActiveConfiguration) : SelectAction → Option ActiveConfiguration
  | .byName n => c.select n
  | .byIdx i => if i < c.flat_options.length then some (c.select_idx i) else none

/-- Run a finite sequence of resolver calls. -/
def runActions (c : ActiveConfiguration) : List SelectAction → Option ActiveConfiguration
  | [] => some c
  | a :: rest =>
    match runAction c a with
    | none => none
    | some c' => runActions c' rest

/-- The selected members of a selection group. -/
def group_members (c : ActiveConfiguration) (g : String) : List Nat :=
  c.selected.filter fun s => (getOpt c.flat_options s).selection_group == g

/-- The activity predicate exactly as the specification words it (for claim C5); it is
used only to compare against the source-derived `is_option_active`. The option must be
applicable to the target; every requirement token must be satisfied, where a positive
token `X` is satisfied iff an option named `X` is selected or a group named `X` has a
selected member and a negative token `!X` is the inverse of that; and no currently
selected option may carry a negative requirement naming this option. -/
def is_option_active_spec (c : ActiveConfiguration) (option : GeneratorOption) : Bool :=
  (option.chips.isEmpty || option.chips.contains c.chip) &&
  (option.requires.all fun requirement =>
    let kv := ActiveConfiguration.splitRequirement requirement
    ((c.is_selected kv.1 || c.is_group_selected kv.1) == kv.2)) &&
  !(c.selected.any fun s =>
    (getOpt c.flat_options s).requires.any fun r =>
      match r.data with
      | '!' :: rest => String.mk rest == option.name
      | _ => false)

/-! ## Template Directive Processor (`process_file` in `src/main.rs`)

The processor works line by line over the result of Rust's `contents.lines()`.
Lines are embedded as character lists. -/

/-- The loop state of `process_file`: the accumulated output `res`, the pending
`replace` pairs, the `include` stack of conditional frames (the Rust `Vec`'s top,
its last element, is the head of the list here), the `first_line` flag, and the
(mutable) output file path. -/
structure PState where
  res : List Char
  rep : Option (List (List Char × List Char))
  incl : List Bool
  first_line : Bool
  path : String
deriving DecidableEq, Repr

/-- Outcome of processing one line: `panic` models a Rust panic (an `unwrap`
failure), `exclude` models `return None` (produce no output file), `cont`
continues with the updated state. -/
inductive StepResult where
  | panic
  | exclude (st : PState)
  | cont (st : PState)
deriving DecidableEq, Repr

/-- Rust `trimmed.strip_prefix(m₁).or_else(|| trimmed.strip_prefix(m₂))`: the two accepted
marker spellings of each directive. -/
def strip_marker (t m₁ m₂ : List Char) : Option (List Char) :=
  if m₁.isPrefixOf t then some (t.drop m₁.length)
  else if m₂.isPrefixOf t then some (t.drop m₂.length)
  else none

/-- The first-line `INCLUDEFILE` directive handling of `process_file`. A failing
condition excludes the file; a passing condition with a second token renames the
output path; a passing spaced condition without a second token hits
`parts.next().unwrap()` and panics. -/
def handle_includefile (options : List String) (st : PState) (cond : List Char) :
    StepResult :=
  if !(cond.contains ' ') then
    let include_file :=
      match cond with
      | '!' :: stripped => !(options.contains (String.mk stripped))
      | _ => options.contains (String.mk cond)
    if !include_file then .exclude st else .cont st
  else
    match split_whitespace cond with
    | [] => .exclude st
    | p :: rest =>
      let include_file :=
        match p with
        | '!' :: stripped => !(options.contains (String.mk stripped))
        | _ => options.contains (String.mk p)
      if !include_file then .exclude st
      else
        match rest with
        | [] => .panic
        | new_name :: _ => .cont { st with path := String.mk new_name }

/-- The mid-stream directive dispatch of `process_file`'s loop body, in the order of
the Rust `else if` chain: the rustfmt-skip workaround line, `REPLACE`, `IF`, `ELIF`,
`ELSE`, `ENDIF`, then ordinary lines (emitted only when every frame of the `include`
stack is true, after stripping a `#+`/`//+` marker and applying pending
replacements). -/
def process_rest (evalCond : List Char → Option Bool)
    (vars : List (String × String)) (st : PState) (line trimmed : List Char) :
    StepResult :=
  if trimmed == "#[rustfmt::skip]".data then .cont st
  else
    match strip_marker trimmed "#REPLACE ".data "//REPLACE ".data with
    | some what =>
      let replacements := (splitSeq " && ".data what).filterMap fun pair =>
        match split_whitespace pair with
        | pattern :: var_name :: _ =>
          match vars.find? (fun kv => kv.1 == String.mk var_name) with
          | some kv => some (pattern, kv.2.data)
          | none => none
        | _ => none
      .cont (if replacements.isEmpty then st else { st with rep := some replacements })
    | none =>
      match strip_marker trimmed "#IF ".data "//IF ".data with
      | some cond =>
        match evalCond cond with
        | none => .panic
        | some res =>
          match st.incl with
          | [] => .panic
          | top :: rest => .cont { st with incl := (res && top) :: top :: rest }
      | none =>
        match strip_marker trimmed "#ELIF ".data "//ELIF ".data with
        | some cond =>
          match evalCond cond with
          | none => .panic
          | some res =>
            match st.incl with
            | [] => .panic
            | top :: rest => .cont { st with incl := (res && !top) :: rest }
        | none =>
          if "#ELSE".data.isPrefixOf trimmed || "//ELSE".data.isPrefixOf trimmed then
            match st.incl with
            | [] => .panic
            | top :: rest => .cont { st with incl := (!top) :: rest }
          else if "#ENDIF".data.isPrefixOf trimmed ||
              "//ENDIF".data.isPrefixOf trimmed then
            .cont { st with incl := st.incl.tail }
          else if st.incl.all (fun v => v) then
            let l₁ := if "#+".data.isPrefixOf trimmed then
              replaceSeq "#+".data [] line else line
            let l₂ := if "//+".data.isPrefixOf trimmed then
              replaceSeq "//+".data [] l₁ else l₁
            let l₃ :=
              match st.rep with
              | some reps => reps.foldl (fun l pv => replaceSeq pv.1 pv.2 l) l₂
              | none => l₂
            .cont { st with res := st.res ++ l₃ ++ ['\n'], rep := none }
          else .cont st

/-- One iteration of `process_file`'s `for line in contents.lines()` loop. While
`first_line` is set, an `INCLUDEFILE` directive is handled (and, matching the Rust
`continue`, leaves `first_line` set); any other line clears `first_line` and is
processed normally. -/
def process_line (evalCond : List Char → Option Bool) (options : List String)
    (vars : List (String × String)) (st : PState) (line : List Char) : StepResult :=
  let trimmed := trimL line
  if st.first_line then
    match strip_marker trimmed "//INCLUDEFILE ".data "#INCLUDEFILE ".data with
    | some cond => handle_includefile options st cond
    | none => process_rest evalCond vars { st with first_line := false } line trimmed
  else process_rest evalCond vars st line trimmed

/-- Result of running the whole loop. -/
inductive FileOutcome where
  | panic
  | excluded (st : PState)
  | finished (st : PState)
deriving DecidableEq, Repr

/-- The loop of `process_file` over all lines. -/
def process_lines (evalCond : List Char → Option Bool) (options : List String)
    (vars : List (String × String)) : List (List Char) → PState → FileOutcome
  | [], st => .finished st
  | l :: ls, st =>
    match process_line evalCond options vars st l with
    | .panic => .panic
    | .exclude st' => .excluded st'
    | .cont st' => process_lines evalCond options vars ls st'

/-- Rust `process_file` from `src/main.rs`. The result is `none` for a Rust panic,
`some (none, path)` when the file is excluded, and `some (some output, path)` on
success, where `path` is the final value of the `file_path` in-out parameter. -/
def process_file (evalCond : List Char → Option Bool) (contents : String)
    (options : List String) (vars : List (String × String)) (file_path : String) :
    Option (Option String × String) :=
  match process_lines evalCond options vars (rustLines contents)
      { res := [], rep := none, incl := [true], first_line := true, path := file_path } with
  | .panic => none
  | .excluded st => some (none, st.path)
  | .finished st => some (some (String.mk st.res), st.path)

/-- Modelled from the spec: the `IF`/`ELIF` conditions are evaluated by an embedded
Rhai scripting engine (an external crate, not part of this repository) on which
`process_file` registers a single host predicate, `option(name)`, testing membership
of `name` in the selected options. We model the engine on the single-call form
`option("...")` that the fixtures use; any other condition shape is an evaluation
failure (`none`), matching the `unwrap` panic on an evaluation error. -/
def eval_option_cond (options : List String) (cond : List Char) : Option Bool :=
  if "option(\"".data.isPrefixOf cond && "\")".data.isSuffixOf cond then
    some (options.contains (String.mk ((cond.drop 8).dropLast.dropLast)))
  else none

/-- A line that matches none of the directive markers `process_file` reacts to
(the branch conditions of the loop in `src/main.rs`). -/
def no_directive (line : List Char) : Bool :=
  let t := trimL line
  !("//INCLUDEFILE ".data.isPrefixOf t || "#INCLUDEFILE ".data.isPrefixOf t ||
    t == "#[rustfmt::skip]".data ||
    "#REPLACE ".data.isPrefixOf t || "//REPLACE ".data.isPrefixOf t ||
    "#IF ".data.isPrefixOf t || "//IF ".data.isPrefixOf t ||
    "#ELIF ".data.isPrefixOf t || "//ELIF ".data.isPrefixOf t ||
    "#ELSE".data.isPrefixOf t || "//ELSE".data.isPrefixOf t ||
    "#ENDIF".data.isPrefixOf t || "//ENDIF".data.isPrefixOf t ||
    "#+".data.isPrefixOf t || "//+".data.isPrefixOf t)

/-- Reassemble lines the way the emitting branch of the processor does: each line
followed by a newline. -/
def unlines (ls : List (List Char)) : List Char :=
  ls.foldr (fun l acc => l ++ '\n' :: acc) []

/-! ## Headless option validation (`process_options` in `src/main.rs`)

`src/main.rs` carries its own static option catalog (`OPTIONS`) with a distinct
option record type. -/

/-- Rust `GeneratorOption` from `src/main.rs`: `enables` is a list of requirement slots,
each a list of alternatives one of which must be selected. -/
structure HGeneratorOption where
  name : String
  display_name : String
  enables : List (List String)
  disables : List String
  chips : List Chip
deriving DecidableEq, Repr

/-- Rust `GeneratorOptionItem` from `src/main.rs`. -/
inductive HGeneratorOptionItem where
  | category (name display_name : String) (options : List HGeneratorOptionItem)
  | option (o : HGeneratorOption)

/-- Rust `GeneratorOptionItem::name`. -/
def HGeneratorOptionItem.name : HGeneratorOptionItem → String
  | .category n _ _ => n
  | .option o => o.name

/-- Rust `GeneratorOptionItem::chips`. -/
def HGeneratorOptionItem.chips : HGeneratorOptionItem → List Chip
  | .category _ _ _ => []
  | .option o => o.chips

/-- Rust `GeneratorOptionItem::enables`. -/
def HGeneratorOptionItem.enables : HGeneratorOptionItem → List (List String)
  | .category _ _ _ => [[]]
  | .option o => o.enables

/-- The kebab-case display form of a chip (the `strum` `Display` derive). -/
def Chip.kebab : Chip → String
  | .esp32 => "esp32"
  | .esp32c2 => "esp32c2"
  | .esp32c3 => "esp32c3"
  | .esp32c6 => "esp32c6"
  | .esp32h2 => "esp32h2"
  | .esp32s2 => "esp32s2"
  | .esp32s3 => "esp32s3"

/-- The static `OPTIONS` catalog of `src/main.rs`. -/
def OPTIONS : List HGeneratorOptionItem := [
  .option ⟨"alloc", "Enable allocations via the `esp-alloc` crate.", [], [], []⟩,
  .option ⟨"wifi", "Enable Wi-Fi via the `esp-wifi` crate. Requires `alloc`.",
    [["alloc"]], [],
    [.esp32, .esp32c2, .esp32c3, .esp32c6, .esp32s2, .esp32s3]⟩,
  .option ⟨"ble", "Enable BLE via the `esp-wifi` crate. Requires `alloc`.",
    [["alloc"]], [],
    [.esp32, .esp32c2, .esp32c3, .esp32c6, .esp32h2, .esp32s3]⟩,
  .option ⟨"embassy", "Add `embassy` framework support.", [], [], []⟩,
  .option ⟨"probe-rs", "Use `probe-rs` instead of `espflash` for flashing and logging.",
    [["log-backend-defmt-rtt"]], [], []⟩,
  .category "logging" "Logging options" [
    .option ⟨"log-backend-defmt-rtt", "Use `defmt-rtt` as the log backend.",
      [["probe-rs"]], ["log-backend-esp-println"], []⟩,
    .option ⟨"log-backend-esp-println",
      "Use `esp-println` as the log backend. Can be used without a log frontend.",
      [], ["log-backend-defmt-rtt"], []⟩,
    .option ⟨"log-frontend-log",
      "Use the `log` crate as the logging API. Requires `esp-println` as the backend.",
      [["log-backend-esp-println"]], ["log-frontend-defmt", "log-backend-defmt-rtt"], []⟩,
    .option ⟨"log-frontend-defmt",
      "Use the `defmt` crate as the logging API. Can be used with both backends.",
      [["log-backend-esp-println", "log-backend-defmt-rtt"]], ["log-frontend-log"], []⟩],
  .category "panic" "Panic handler options" [
    .option ⟨"panic-esp-backtrace", "Use `esp-backtrace`.", [], [], []⟩],
  .category "optional" "Options" [
    .option ⟨"wokwi", "Add support for Wokwi simulation using VS Code Wokwi extension.",
      [], [], [.esp32, .esp32c3, .esp32c6, .esp32h2, .esp32s2, .esp32s3]⟩,
    .option ⟨"dev-container", "Add support for VS Code Dev Containers and GitHub Codespaces.",
      [], [], []⟩,
    .option ⟨"ci", "Add GitHub Actions support with some basic checks.", [], [], []⟩],
  .category "editor" "Optional editor config files for rust-analyzer" [
    .option ⟨"helix", "Add rust-analyzer settings for Helix Editor", [], [], []⟩,
    .option ⟨"vscode", "Add rust-analyzer settings for Visual Studio Code", [], [], []⟩]]

/-- Rust `Vec::join` on strings (kernel-executable replacement for
`String.intercalate`). -/
def joinSep (sep : String) : List String → String
  | [] => ""
  | [a] => a
  | a :: rest => a ++ sep ++ joinSep sep rest

/-- One iteration of the loop in `process_options` (`src/main.rs`): validate a single
requested option name against the catalog. `Except.error` models `log::error!`
followed by `process::exit(-1)`; an unknown name falls through silently. -/
def validate_option (items : List HGeneratorOptionItem) (chip : Chip)
    (requested : List String) (option : String) : Except String Unit :=
  match items.find? (fun item => item.name == option) with
  | none => .ok ()
  | some item =>
    if !(item.chips.any (fun c => c == chip)) && !item.chips.isEmpty then
      .error ("Option '" ++ option ++ "' is not supported for chip " ++ chip.kebab)
    else
      let requires := (item.enables.filter fun alternatives =>
        !(alternatives.all fun alternative => requested.contains alternative)).map
          fun alternatives =>
            match alternatives with
            | [a] => a
            | _ => "one of \x7b" ++ joinSep ", " alternatives ++ "\x7d"
      if !requires.isEmpty then
        .error ("Option '" ++ item.name ++ "' requires " ++ joinSep ", " requires)
      else .ok ()

/-- The loop of `process_options`: options are validated in order and the first
failure aborts the run. -/
def process_options_loop (items : List HGeneratorOptionItem) (chip : Chip)
    (requested : List String) : List String → Except String Unit
  | [] => .ok ()
  | o :: rest =>
    match validate_option items chip requested o with
    | .error e => .error e
    | .ok _ => process_options_loop items chip requested rest

/-- Rust `process_options` from `src/main.rs`: validate every requested option against the
static catalog for the chosen chip. -/
def process_options (items : List HGeneratorOptionItem) (chip : Chip)
    (requested : List String) : Except String Unit :=
  process_options_loop items chip requested requested

/-! ## Theorems -/

/-- Outcome shapes of `select_idx`: either the call aborts with the state unchanged, or
it appends the index after deselecting the (possibly empty) group. -/
theorem select_idx_cases (c : ActiveConfiguration) (idx : Nat) :
    c.select_idx idx = c ∨
    ((getOpt c.flat_options idx).selection_group = "" ∧
      c.select_idx idx = { c with selected := c.selected ++ [idx] }) ∨
    ((getOpt c.flat_options idx).selection_group ≠ "" ∧
      c.select_idx idx = { c with selected :=
        (c.selected.filter fun s => (getOpt c.flat_options s).selection_group !=
          (getOpt c.flat_options idx).selection_group) ++ [idx] }) := by
  unfold ActiveConfiguration.select_idx ActiveConfiguration.deselect_group
  dsimp only
  split
  · exact Or.inl rfl
  · split
    · rename_i hemp
      exact Or.inr (Or.inl ⟨(String.isEmpty_iff _).mp hemp, rfl⟩)
    · rename_i hemp
      split
      · exact Or.inl rfl
      · refine Or.inr (Or.inr ⟨fun h => hemp ?_, rfl⟩)
        rw [h]
        rfl

/-- The call `select_idx` only rewrites the `selected` list. -/
theorem select_idx_flat_options (c : ActiveConfiguration) (idx : Nat) :
    (c.select_idx idx).flat_options = c.flat_options := by
  rcases select_idx_cases c idx with h | ⟨_, h⟩ | ⟨_, h⟩ <;> rw [h]

/-- The group-exclusivity invariant: at most one selected member per non-empty
selection group. -/
def GroupInv (c : ActiveConfiguration) : Prop :=
  ∀ g : String, g ≠ "" → (group_members c g).length ≤ 1

/-- The call `select_idx` preserves the group-exclusivity invariant. -/
theorem groupInv_select_idx {c : ActiveConfiguration} (h : GroupInv c) (idx : Nat) :
    GroupInv (c.select_idx idx) := by
  rcases select_idx_cases c idx with heq | ⟨hem, heq⟩ | ⟨hne, heq⟩
  · rw [heq]; exact h
  · rw [heq]
    intro g hg
    have hpg : ((getOpt c.flat_options idx).selection_group == g) = false := by
      rw [hem]; exact beq_eq_false_iff_ne.mpr (Ne.symm hg)
    unfold group_members at *
    dsimp only at *
    rw [List.filter_append]
    simp only [List.filter_cons, hpg, Bool.false_eq_true, if_false, List.filter_nil,
      List.append_nil]
    exact h g hg
  · rw [heq]
    intro g hg
    unfold group_members at *
    dsimp only at *
    rw [List.filter_append]
    by_cases hgg : g = (getOpt c.flat_options idx).selection_group
    · rw [hgg]
      have hall : (c.selected.filter fun s =>
          (getOpt c.flat_options s).selection_group !=
            (getOpt c.flat_options idx).selection_group).filter
            (fun s => (getOpt c.flat_options s).selection_group ==
              (getOpt c.flat_options idx).selection_group) = [] := by
        rw [List.filter_filter]
        apply List.filter_eq_nil_iff.mpr
        intro a _
        cases hq : (getOpt c.flat_options a).selection_group ==
          (getOpt c.flat_options idx).selection_group <;> simp [bne, hq]
      rw [hall]
      simp
    · have hpg : ((getOpt c.flat_options idx).selection_group == g) = false :=
        beq_eq_false_iff_ne.mpr fun hh => hgg (hh.symm)
      simp only [List.filter_cons, hpg, Bool.false_eq_true, if_false, List.filter_nil,
        List.append_nil]
      calc ((c.selected.filter fun s =>
              (getOpt c.flat_options s).selection_group !=
                (getOpt c.flat_options idx).selection_group).filter
            (fun s => (getOpt c.flat_options s).selection_group == g)).length
          ≤ (c.selected.filter fun s =>
              (getOpt c.flat_options s).selection_group == g).length :=
            ((List.filter_sublist _).filter _).length_le
        _ ≤ 1 := h g hg

/-- A single resolver call (`select` or `select_idx`) preserves the invariant. -/
theorem groupInv_runAction {c c' : ActiveConfiguration} (h : GroupInv c)
    (a : SelectAction) (hr : runAction c a = some c') : GroupInv c' := by
  cases a with
  | byName n =>
    dsimp only [runAction, ActiveConfiguration.select] at hr
    cases hf : find_option n c.flat_options c.chip with
    | none => rw [hf] at hr; cases hr
    | some p =>
      rw [hf] at hr
      dsimp only [Option.map] at hr
      cases hr
      exact groupInv_select_idx h p.1
  | byIdx i =>
    dsimp only [runAction] at hr
    split at hr
    · cases hr
      exact groupInv_select_idx h i
    · cases hr

/-- Any sequence of resolver calls preserves the invariant. -/
theorem groupInv_runActions {c c' : ActiveConfiguration} (h : GroupInv c)
    {acts : List SelectAction} (hr : runActions c acts = some c') : GroupInv c' := by
  induction acts generalizing c with
  | nil =>
    dsimp only [runActions] at hr
    cases hr
    exact h
  | cons a rest ih =>
    dsimp only [runActions] at hr
    cases ha : runAction c a with
    | none => rw [ha] at hr; cases hr
    | some c₁ =>
      rw [ha] at hr
      exact ih (groupInv_runAction h a ha) hr

/-- Claim C1: for every catalog and target chip, after any finite sequence of
`select`/`select_idx` calls starting from the empty selection, the `selected` list
contains at most one option per non-empty selection group. -/
theorem selected_at_most_one_per_nonempty_group (chip : Chip)
    (opts : List GeneratorOption) (acts : List SelectAction)
    (c' : ActiveConfiguration)
    (h : runActions { chip := chip, selected := [], flat_options := opts } acts = some c')
    (g : String) (hg : g ≠ "") :
    (group_members c' g).length ≤ 1 := by
  refine groupInv_runActions (fun g' _ => ?_) h g hg
  simp [group_members]

/-- Witness for claim C1 at a concrete catalog and call sequence. -/
theorem selected_at_most_one_per_nonempty_group_witness :
    runActions
      { chip := Chip.esp32, selected := [],
        flat_options := [⟨"option1", "", "group", "", [], [.esp32]⟩,
                         ⟨"option2", "", "group", "", [], [.esp32]⟩] }
      [.byIdx 0, .byName "option2"]
      = some
        { chip := Chip.esp32, selected := [1],
          flat_options := [⟨"option1", "", "group", "", [], [.esp32]⟩,
                           ⟨"option2", "", "group", "", [], [.esp32]⟩] } ∧
    (group_members
      { chip := Chip.esp32, selected := [1],
        flat_options := [⟨"option1", "", "group", "", [], [.esp32]⟩,
                         ⟨"option2", "", "group", "", [], [.esp32]⟩] } "group").length ≤ 1 := by
  refine ⟨by decide, ?_⟩
  exact selected_at_most_one_per_nonempty_group Chip.esp32
    [⟨"option1", "", "group", "", [], [.esp32]⟩, ⟨"option2", "", "group", "", [], [.esp32]⟩]
    [.byIdx 0, .byName "option2"] _ (by decide) "group" (by decide)

/-- Claim C4: when the newly selected option belongs to a non-empty selection group
and some currently selected member of that group fails the `can_be_disabled` check
(with the allow-group-swap flag), `select_idx` aborts with `selected` exactly as it
was: no member is removed and the new option is not added. -/
theorem select_idx_group_replacement_atomic (c : ActiveConfiguration) (idx s : Nat)
    (hs : s ∈ c.selected)
    (hgrp : (getOpt c.flat_options s).selection_group =
      (getOpt c.flat_options idx).selection_group)
    (hne : (getOpt c.flat_options idx).selection_group ≠ "")
    (hcd : ActiveConfiguration.can_be_disabled_impl c.selected c.flat_options s true
      = false) :
    (c.select_idx idx).selected = c.selected := by
  have hemp : ((getOpt c.flat_options idx).selection_group.isEmpty) = false := by
    cases hq : (getOpt c.flat_options idx).selection_group.isEmpty
    · rfl
    · exact absurd ((String.isEmpty_iff _).mp hq) hne
  have hall : (c.selected.all fun x =>
      if (getOpt c.flat_options x).selection_group ==
          (getOpt c.flat_options idx).selection_group then
        ActiveConfiguration.can_be_disabled_impl c.selected c.flat_options x true
      else true) = false := by
    apply List.all_eq_false.mpr
    refine ⟨s, hs, ?_⟩
    rw [if_pos (beq_iff_eq.mpr hgrp), hcd]
    simp
  have hds : ActiveConfiguration.deselect_group c.selected c.flat_options
      (getOpt c.flat_options idx).selection_group = (false, c.selected) := by
    unfold ActiveConfiguration.deselect_group
    simp only [hemp, hall, Bool.false_eq_true, if_false, Bool.not_false, if_true]
  unfold ActiveConfiguration.select_idx
  dsimp only
  split
  · rfl
  · rw [hds]
    rfl

/-- Witness for claim C4: replicates the scenario of the Rust unit test
`selecting_one_in_group_deselects_other` at the point where the swap is blocked. -/
theorem select_idx_group_replacement_atomic_witness :
    (ActiveConfiguration.select_idx
      { chip := Chip.esp32, selected := [1, 2],
        flat_options := [⟨"option1", "", "group", "", [], [.esp32]⟩,
                         ⟨"option2", "", "group", "", [], [.esp32]⟩,
                         ⟨"option3", "", "", "", ["option2"], [.esp32]⟩] } 0).selected
      = [1, 2] := by
  exact select_idx_group_replacement_atomic _ 0 1 (by decide) (by decide) (by decide)
    (by decide)

/-- Claim C7: a single `select(x)` call never ends with an already-selected,
non-disableable `x` removed from `selected`. -/
theorem select_idx_never_removes_locked (c : ActiveConfiguration) (idx : Nat)
    (hmem : idx ∈ c.selected)
    (hcd : ActiveConfiguration.can_be_disabled_impl c.selected c.flat_options idx false
      = false) :
    idx ∈ (c.select_idx idx).selected := by
  rcases select_idx_cases c idx with heq | ⟨_, heq⟩ | ⟨_, heq⟩ <;> rw [heq]
  · exact hmem
  · simp
  · simp

/-- Witness for claim C7: `option1` is selected and locked (its group is required by
the selected `option2`); re-selecting it keeps it selected. -/
theorem select_idx_never_removes_locked_witness :
    0 ∈ (ActiveConfiguration.select_idx
      { chip := Chip.esp32, selected := [0, 1],
        flat_options := [⟨"option1", "", "group", "", [], [.esp32]⟩,
                         ⟨"option2", "", "", "", ["group"], [.esp32]⟩] } 0).selected := by
  exact select_idx_never_removes_locked _ 0 (by decide) (by decide)

/-- Claim C10: selecting an already-selected, currently active option with an empty
selection group appends a second copy of its index, so `selected` can contain
duplicates. -/
theorem select_idx_appends_duplicate (c : ActiveConfiguration) (idx : Nat)
    (hgrp : (getOpt c.flat_options idx).selection_group = "")
    (hact : c.is_option_active (getOpt c.flat_options idx) = true)
    (hmem : idx ∈ c.selected) :
    (c.select_idx idx).selected = c.selected ++ [idx] ∧
      ¬ (c.select_idx idx).selected.Nodup := by
  have hempty : ("" : String).isEmpty = true := rfl
  have heq : c.select_idx idx = { c with selected := c.selected ++ [idx] } := by
    unfold ActiveConfiguration.select_idx ActiveConfiguration.deselect_group
    dsimp only
    rw [hgrp]
    simp only [hact, Bool.not_true, Bool.false_eq_true, if_false, hempty, if_true]
  rw [heq]
  refine ⟨rfl, fun hnd => ?_⟩
  rcases List.nodup_append.mp hnd with ⟨_, _, hdisj⟩
  exact hdisj hmem (by simp)

/-- Witness for claim C10: re-selecting the ungrouped selected option `x` duplicates
its index. -/
theorem select_idx_appends_duplicate_witness :
    (ActiveConfiguration.select_idx
      { chip := Chip.esp32, selected := [0],
        flat_options := [⟨"x", "", "", "", [], []⟩] } 0).selected = [0, 0] ∧
    ¬ (ActiveConfiguration.select_idx
      { chip := Chip.esp32, selected := [0],
        flat_options := [⟨"x", "", "", "", [], []⟩] } 0).selected.Nodup := by
  exact select_idx_appends_duplicate _ 0 (by decide) (by decide) (by decide)

/-- Two index lists with the same membership give the same `any`. -/
theorem any_congr_of_mem_iff {l₁ l₂ : List Nat} (p : Nat → Bool)
    (h : ∀ i, i ∈ l₁ ↔ i ∈ l₂) : l₁.any p = l₂.any p := by
  rw [Bool.eq_iff_iff]
  simp only [List.any_eq_true]
  constructor
  · rintro ⟨x, hx, hpx⟩; exact ⟨x, (h x).mp hx, hpx⟩
  · rintro ⟨x, hx, hpx⟩; exact ⟨x, (h x).mpr hx, hpx⟩

/-- The predicate `is_selected` only depends on the membership of `selected`. -/
theorem is_selected_congr (c : ActiveConfiguration) (sel' : List Nat) (k : String)
    (h : ∀ i, i ∈ sel' ↔ i ∈ c.selected) :
    ActiveConfiguration.is_selected { c with selected := sel' } k = c.is_selected k := by
  unfold ActiveConfiguration.is_selected ActiveConfiguration.selected_index
  dsimp only
  rw [List.findIdx?_isSome, List.findIdx?_isSome]
  exact any_congr_of_mem_iff _ h

/-- The predicate `is_group_selected` only depends on the membership of `selected`. -/
theorem is_group_selected_congr (c : ActiveConfiguration) (sel' : List Nat) (g : String)
    (h : ∀ i, i ∈ sel' ↔ i ∈ c.selected) :
    ActiveConfiguration.is_group_selected { c with selected := sel' } g =
      c.is_group_selected g := by
  unfold ActiveConfiguration.is_group_selected
  dsimp only
  exact any_congr_of_mem_iff _ h

/-- The predicate `requirements_met` only depends on the membership of `selected`. -/
theorem requirements_met_congr (c : ActiveConfiguration) (sel' : List Nat)
    (reqs : List String) (h : ∀ i, i ∈ sel' ↔ i ∈ c.selected) :
    ActiveConfiguration.requirements_met { c with selected := sel' } reqs =
      c.requirements_met reqs := by
  unfold ActiveConfiguration.requirements_met
  dsimp only
  congr 1
  funext requirement
  rw [is_selected_congr c sel' _ h, is_group_selected_congr c sel' _ h]

/-- Claim C8: the activity predicate is a pure function of the catalog, the target
and the membership of the selected set: replacing `selected` by any list with the
same members (a permutation or a duplicate-free reduction) leaves
`is_option_active` unchanged. -/
theorem is_option_active_membership_invariant (c : ActiveConfiguration)
    (sel' : List Nat) (o : GeneratorOption)
    (h : ∀ i, i ∈ sel' ↔ i ∈ c.selected) :
    ActiveConfiguration.is_option_active { c with selected := sel' } o =
      c.is_option_active o := by
  unfold ActiveConfiguration.is_option_active
  dsimp only
  rw [requirements_met_congr c sel' o.requires h, any_congr_of_mem_iff _ h]

/-- Witness for claim C8: a permuted selection with a duplicated entry yields the
same activity verdict. -/
theorem is_option_active_membership_invariant_witness :
    ActiveConfiguration.is_option_active
      { chip := Chip.esp32, selected := [1, 0, 0],
        flat_options := [⟨"a", "", "g", "", [], []⟩, ⟨"b", "", "", "", [], []⟩] }
      ⟨"c", "", "", "", ["a"], []⟩ =
    ActiveConfiguration.is_option_active
      { chip := Chip.esp32, selected := [0, 1],
        flat_options := [⟨"a", "", "g", "", [], []⟩, ⟨"b", "", "", "", [], []⟩] }
      ⟨"c", "", "", "", ["a"], []⟩ := by
  exact is_option_active_membership_invariant
    { chip := Chip.esp32, selected := [0, 1],
      flat_options := [⟨"a", "", "g", "", [], []⟩, ⟨"b", "", "", "", [], []⟩] }
    [1, 0, 0] ⟨"c", "", "", "", ["a"], []⟩
    (by intro i; simp [List.mem_cons]; tauto)

/-- Claim C5: the source's activity predicate diverges from the specified one on a
negative requirement token naming an occupied selection group. With option `a` in
group `g` selected and option `b` requiring `!g`, the code reports `b` active
(because no *option named* `g` is selected), while the specification — and the doc
comment on `requirements_met` itself — says the negative token must reject the
occupied group, making `b` inactive. -/
theorem is_option_active_negative_group_divergence :
    ActiveConfiguration.is_option_active
      { chip := Chip.esp32, selected := [0],
        flat_options := [⟨"a", "", "g", "", [], []⟩, ⟨"b", "", "", "", ["!g"], []⟩] }
      ⟨"b", "", "", "", ["!g"], []⟩ = true ∧
    is_option_active_spec
      { chip := Chip.esp32, selected := [0],
        flat_options := [⟨"a", "", "g", "", [], []⟩, ⟨"b", "", "", "", ["!g"], []⟩] }
      ⟨"b", "", "", "", ["!g"], []⟩ = false := by
  decide

/-- The helper `strip_marker` misses when neither marker is a prefix. -/
theorem strip_marker_none {t m₁ m₂ : List Char} (h₁ : m₁.isPrefixOf t = false)
    (h₂ : m₂.isPrefixOf t = false) : strip_marker t m₁ m₂ = none := by
  unfold strip_marker
  simp [h₁, h₂]

/-- A directive-free line is passed through the mid-stream dispatch verbatim
(with its newline) whenever no replacement is pending and the whole conditional
stack currently includes. -/
theorem process_rest_no_directive (ev : List Char → Option Bool)
    (vars : List (String × String)) (st : PState) (l : List Char)
    (hnd : no_directive l = true) (hrep : st.rep = none)
    (hincl : st.incl.all (fun v => v) = true) :
    process_rest ev vars st l (trimL l) =
      .cont { st with res := st.res ++ l ++ ['\n'], rep := none } := by
  simp only [no_directive, Bool.not_eq_true', Bool.or_eq_false_iff] at hnd
  obtain ⟨⟨⟨⟨⟨⟨⟨⟨⟨⟨⟨⟨⟨⟨h1, h2⟩, h3⟩, h4⟩, h5⟩, h6⟩, h7⟩, h8⟩, h9⟩, h10⟩, h11⟩, h12⟩, h13⟩, h14⟩, h15⟩ := hnd
  unfold process_rest
  rw [strip_marker_none h4 h5, strip_marker_none h6 h7, strip_marker_none h8 h9]
  simp only [h3, h10, h11, h12, h13, h14, h15, hrep, hincl, Bool.false_eq_true,
    Bool.or_self, if_false, if_true]

/-- A directive-free line is emitted verbatim by one loop iteration, clearing the
first-line flag. -/
theorem process_line_no_directive (ev : List Char → Option Bool) (opts : List String)
    (vars : List (String × String)) (st : PState) (l : List Char)
    (hnd : no_directive l = true) (hrep : st.rep = none)
    (hincl : st.incl.all (fun v => v) = true) :
    process_line ev opts vars st l =
      .cont { st with res := st.res ++ l ++ ['\n'], rep := none, first_line := false } := by
  have hnd' := hnd
  simp only [no_directive, Bool.not_eq_true', Bool.or_eq_false_iff] at hnd'
  obtain ⟨⟨⟨⟨⟨⟨⟨⟨⟨⟨⟨⟨⟨⟨h1, h2⟩, _⟩, _⟩, _⟩, _⟩, _⟩, _⟩, _⟩, _⟩, _⟩, _⟩, _⟩, _⟩, _⟩ := hnd'
  obtain ⟨sres, srep, sincl, sfl, spath⟩ := st
  dsimp only at hrep hincl
  subst hrep
  unfold process_line
  dsimp only
  cases sfl
  · exact process_rest_no_directive ev vars _ l hnd rfl hincl
  · rw [strip_marker_none h1 h2]
    exact process_rest_no_directive ev vars _ l hnd rfl hincl

/-- Processing a run of directive-free lines appends them, newline-terminated, to the
output and leaves the path unchanged. -/
theorem process_lines_no_directives (ev : List Char → Option Bool) (opts : List String)
    (vars : List (String × String)) (ls : List (List Char)) (st : PState)
    (hnd : ∀ l ∈ ls, no_directive l = true) (hrep : st.rep = none)
    (hincl : st.incl.all (fun v => v) = true) :
    ∃ st', process_lines ev opts vars ls st = .finished st' ∧
      st'.res = st.res ++ unlines ls ∧ st'.path = st.path := by
  induction ls generalizing st with
  | nil => exact ⟨st, rfl, by simp [unlines], rfl⟩
  | cons l ls ih =>
    have hstep := process_line_no_directive ev opts vars st l (hnd l (by simp)) hrep hincl
    obtain ⟨st', hrun, hres, hpath⟩ := ih
      { st with res := st.res ++ l ++ ['\n'], rep := none, first_line := false }
      (fun x hx => hnd x (by simp [hx])) rfl hincl
    refine ⟨st', ?_, ?_, hpath⟩
    · simp only [process_lines, hstep]
      exact hrun
    · rw [hres]
      simp [unlines, List.append_assoc]

/-- Claim C9 counterexample: a directive-free template does not always render
identically — `process_file` newline-terminates every line, so an input without a
trailing newline gains one. -/
theorem process_file_round_trip_counterexample :
    process_file (eval_option_cond []) "a" [] [] "p" = some (some "a\n", "p") ∧
      ("a\n" : String) ≠ "a" := by
  exact ⟨by decide, by decide⟩

/-- Claim C9 (amended): for every template whose lines contain no directives,
`process_file` returns `Some` of the input's lines reassembled with every line —
including the last — terminated by a newline, and leaves the file path unchanged;
the output is identical to the input exactly when the input already has that shape
(it ends with a newline and uses no CR line endings). -/
theorem process_file_no_directives (ev : List Char → Option Bool) (contents : String)
    (opts : List String) (vars : List (String × String)) (path : String)
    (hnd : ∀ l ∈ rustLines contents, no_directive l = true) :
    process_file ev contents opts vars path
      = some (some (String.mk (unlines (rustLines contents))), path) := by
  unfold process_file
  obtain ⟨st', h1, h2, h3⟩ := process_lines_no_directives ev opts vars
    (rustLines contents)
    { res := [], rep := none, incl := [true], first_line := true, path := path }
    hnd rfl rfl
  rw [h1]
  dsimp only
  rw [h2, h3]
  rfl

/-- Witness for claim C9 (amended) on a newline-terminated input, where the output
is identical to the input. -/
theorem process_file_no_directives_witness :
    process_file (eval_option_cond []) "hello\nworld\n" [] [] "p"
      = some (some "hello\nworld\n", "p") := by
  have h := process_file_no_directives (eval_option_cond []) "hello\nworld\n" [] [] "p"
    (by decide)
  rw [h]
  rfl

/-- Claim C3 counterexample: a template whose `ENDIF` has no matching `IF` does not
raise any error; `process_file` pops the empty stack as a no-op and returns the
normal output. -/
theorem process_file_endif_underflow_counterexample :
    process_file (eval_option_cond []) "#ENDIF\nhello" [] [] "file"
      = some (some "hello\n", "file") := by
  decide

/-- Claim C3 (amended): an `ENDIF` with no matching `IF` is silently ignored — the
pop of the empty conditional stack is a no-op, no fatal error is raised and no
file/line diagnostic exists (the function has no error channel besides panics, and
none occurs here): the remaining directive-free lines are emitted normally. -/
theorem process_file_endif_underflow_silent (ev : List Char → Option Bool)
    (contents : String) (opts : List String) (vars : List (String × String))
    (path : String) (rest : List (List Char))
    (hsplit : rustLines contents = "#ENDIF".data :: rest)
    (hnd : ∀ l ∈ rest, no_directive l = true) :
    process_file ev contents opts vars path
      = some (some (String.mk (unlines rest)), path) := by
  unfold process_file
  rw [hsplit]
  obtain ⟨st', h1, h2, h3⟩ := process_lines_no_directives ev opts vars rest
    { res := [], rep := none, incl := [], first_line := false, path := path }
    hnd rfl rfl
  have hline : process_line ev opts vars
      { res := [], rep := none, incl := [true], first_line := true, path := path }
      "#ENDIF".data =
      .cont { res := [], rep := none, incl := [], first_line := false, path := path } := rfl
  simp only [process_lines, hline]
  rw [h1]
  dsimp only
  rw [h2, h3]
  rfl

/-- Witness for claim C3 (amended) at a concrete malformed template. -/
theorem process_file_endif_underflow_silent_witness :
    process_file (eval_option_cond []) "#ENDIF\nplain text" [] [] "file"
      = some (some "plain text\n", "file") := by
  have h := process_file_endif_underflow_silent (eval_option_cond [])
    "#ENDIF\nplain text" [] [] "file" ["plain text".data] (by decide) (by decide)
  rw [h]
  rfl

/-- Claim C2: the `ELIF`/`ELSE` chain is evaluated on a flat boolean stack that
forgets whether an earlier branch of the chain was taken. On the claim's template
(`IF opt1 / ELIF opt2 / ELIF opt3 / ELSE`) with `{opt1, opt2}` selected, the code
emits the `IF` branch *and* the `ELSE` branch (`"opt1\nelse\n"`), not only the
`IF` branch; with nothing selected it emits only the `ELSE` branch, as specified. -/
theorem elif_chain_else_divergence :
    process_file (eval_option_cond ["opt1", "opt2"])
        "#IF option(\"opt1\")\nopt1\n#ELIF option(\"opt2\")\nopt2\n#ELIF option(\"opt3\")\nopt3\n#ELSE\nelse\n#ENDIF"
        ["opt1", "opt2"] [] "file"
      = some (some "opt1\nelse\n", "file") ∧
    "opt1\nelse\n" ≠ "opt1\n" ∧
    process_file (eval_option_cond [])
        "#IF option(\"opt1\")\nopt1\n#ELIF option(\"opt2\")\nopt2\n#ELIF option(\"opt3\")\nopt3\n#ELSE\nelse\n#ENDIF"
        [] [] "file"
      = some (some "else\n", "file") := by
  exact ⟨by decide, by decide, by decide⟩

/-- Claim C6 counterexample: invalid requested options are *not* all collected and
reported together. An unknown option name produces no diagnostic at all and the
run continues; and when two requested options are both invalid (`wifi` is not
supported on the esp32h2 target, `ble` lacks its `alloc` requirement), the run
aborts at the first with a single diagnostic that never mentions the second. -/
theorem process_options_not_collected :
    process_options OPTIONS Chip.esp32 ["unknown-option"] = .ok () ∧
    process_options OPTIONS Chip.esp32h2 ["wifi", "ble"]
      = .error "Option 'wifi' is not supported for chip esp32h2" := by
  exact ⟨rfl, rfl⟩

/-- Claim C6 (amended): the headless validation checks the requested options in
order against the top-level catalog items; names that match no top-level item
(unknown names, and options nested inside categories) are silently skipped; the
first matched option that fails its chip-applicability or requirement check aborts
the whole run immediately — before any output file is written — with that single
diagnostic, and later options are not examined. -/
theorem process_options_first_failure (items : List HGeneratorOptionItem) (chip : Chip)
    (pre : List String) (bad : String) (post : List String) (e : String)
    (hpre : ∀ o ∈ pre, validate_option items chip (pre ++ bad :: post) o = .ok ())
    (hbad : validate_option items chip (pre ++ bad :: post) bad = .error e) :
    process_options items chip (pre ++ bad :: post) = .error e := by
  unfold process_options
  have key : ∀ (l : List String),
      (∀ o ∈ l, validate_option items chip (pre ++ bad :: post) o = .ok ()) →
      process_options_loop items chip (pre ++ bad :: post) (l ++ bad :: post)
        = .error e := by
    intro l
    induction l with
    | nil =>
      intro _
      simp only [List.nil_append, process_options_loop, hbad]
    | cons a l ih =>
      intro hl
      simp only [List.cons_append, process_options_loop, hl a (by simp)]
      exact ih fun o ho => hl o (by simp [ho])
  exact key pre hpre

/-- Witness for claim C6 (amended): `alloc` validates, then `wifi` aborts the run on
the esp32h2 target with its single diagnostic, and `ble` is never examined. -/
theorem process_options_first_failure_witness :
    process_options OPTIONS Chip.esp32h2 ["alloc", "wifi", "ble"]
      = .error "Option 'wifi' is not supported for chip esp32h2" := by
  exact process_options_first_failure OPTIONS Chip.esp32h2 ["alloc"] "wifi" ["ble"]
    "Option 'wifi' is not supported for chip esp32h2"
    (by intro o ho; rw [List.mem_singleton] at ho; subst ho; rfl) rfl
